import Mathlib

/-!
Shallow embedding of the per-feed anomaly-detection core of BC-Info:
the bounded moving average, spike detection, hourly-baseline and
corrective-baseline state machine of src/feed/listeners.rs, the
insert-if-absent path of src/main.rs, and the persistence codec.
The f32 values are modelled as rationals; the u8 spike counter is a
natural number reduced modulo 256 on increment (release-mode wrapping
semantics), with a checked variant modelling overflow-checked builds.
-/

namespace BC

/-- Modelled from the spec: the configuration provider (config.rs is not among
the embedded sources); field names follow their use sites in listeners.rs. -/
structure Config where
  spike : ℚ
  low_listener_increase : ℚ
  high_listener_dec : ℚ
  high_listener_dec_every : ℚ
  reset_pcnt : ℚ
  adjust_pcnt : ℚ
  spikes_required : ℕ

/-- Modelled from the spec: util::lerp (util.rs is not among the embedded
sources); linear interpolation from a toward b by the fraction t. -/
def lerp (a b t : ℚ) : ℚ := a + (b - a) * t

def MOVING_AVG_SIZE : ℕ := 5

structure Average where
  current : ℚ
  last : ℚ
  moving : List ℚ
deriving DecidableEq

def Average.new (average : ℚ) : Average :=
  { current := average
    last := average
    moving := if average > 0 then [average] else [] }

def Average.update (a : Average) (value : ℚ) : Average :=
  let pushed := a.moving ++ [value]
  let moving := if pushed.length > MOVING_AVG_SIZE then pushed.tail else pushed
  { current := moving.sum / (moving.length : ℚ)
    last := a.current
    moving := moving }

structure ListenerData where
  average : Average
  unskewed_avg : Option ℚ
  hourly : Fin 24 → ℚ
  spike_count : ℕ

def ListenerData.new (listeners : ℚ) (hourly : Fin 24 → ℚ) : ListenerData :=
  { average := Average.new listeners
    unskewed_avg := none
    hourly := hourly
    spike_count := 0 }

def ListenerData.get_average_delta (d : ListenerData) (listeners : ℚ) : ℚ :=
  let sub :=
    match d.unskewed_avg with
    | some unskewed => unskewed
    | none => d.average.current
  listeners - sub

/-- Adaptive threshold computed inside ListenerData::has_spiked. -/
def ListenerData.threshold (d : ListenerData) (cfg : Config) (listeners : ℚ) : ℚ :=
  let spike_pcnt := cfg.spike
  if listeners < 50 then
    spike_pcnt + (50 - listeners) * cfg.low_listener_increase
  else
    let pcnt := cfg.high_listener_dec
    let per_pcnt := cfg.high_listener_dec_every
    spike_pcnt - min (d.get_average_delta listeners / per_pcnt * pcnt) (spike_pcnt - 1 / 100)

def ListenerData.has_spiked (d : ListenerData) (cfg : Config) (listeners : ℚ) : Bool :=
  if d.average.current = 0 then false
  else decide (listeners * d.threshold cfg listeners ≤ listeners - d.average.current)

/-- Body of ListenerData::update_hourly after the spike counter has been
computed; shared by the wrapping and the overflow-checked embeddings of the
counter increment. -/
def ListenerData.update_hourly_body (d : ListenerData) (cfg : Config) (hour : Fin 24)
    (has_spiked : Bool) (spike_count : ℕ) : ListenerData :=
  match d.unskewed_avg with
  | some unskewed =>
    if d.average.current - unskewed < unskewed * cfg.reset_pcnt then
      { d with spike_count := spike_count, unskewed_avg := none,
               hourly := Function.update d.hourly hour d.average.current }
    else
      let new_val := lerp unskewed d.average.current cfg.adjust_pcnt
      { d with spike_count := spike_count, unskewed_avg := some new_val,
               hourly := Function.update d.hourly hour new_val }
  | none =>
    let unskewed_avg :=
      if has_spiked = true ∧ cfg.spikes_required < spike_count ∧ 0 < d.average.last then
        some d.average.current
      else d.unskewed_avg
    { d with spike_count := spike_count, unskewed_avg := unskewed_avg,
             hourly := Function.update d.hourly hour d.average.current }

def ListenerData.update_hourly (d : ListenerData) (cfg : Config) (hour : Fin 24)
    (has_spiked : Bool) : ListenerData :=
  let spike_count := if has_spiked then (d.spike_count + 1) % 256 else 0
  d.update_hourly_body cfg hour has_spiked spike_count

def ListenerData.step (d : ListenerData) (cfg : Config) (hour : Fin 24)
    (listeners : ℚ) : Bool × ListenerData :=
  let has_spiked := d.has_spiked cfg listeners
  let d1 : ListenerData := { d with average := d.average.update listeners }
  (has_spiked, d1.update_hourly cfg hour has_spiked)

/-- Checked u8 increment: fails on overflow, as in overflow-checked builds. -/
def checkedAddU8 (n : ℕ) : Option ℕ :=
  if n + 1 ≤ 255 then some (n + 1) else none

def ListenerData.update_hourlyChecked (d : ListenerData) (cfg : Config) (hour : Fin 24)
    (has_spiked : Bool) : Option ListenerData :=
  match (if has_spiked then checkedAddU8 d.spike_count else some 0) with
  | none => none
  | some sc => some (d.update_hourly_body cfg hour has_spiked sc)

def ListenerData.stepChecked (d : ListenerData) (cfg : Config) (hour : Fin 24)
    (listeners : ℚ) : Option (Bool × ListenerData) :=
  let has_spiked := d.has_spiked cfg listeners
  let d1 : ListenerData := { d with average := d.average.update listeners }
  match d1.update_hourlyChecked cfg hour has_spiked with
  | none => none
  | some d2 => some (has_spiked, d2)

abbrev AverageMap := List (ℤ × ListenerData)

/-- Truncation toward zero, modelling the f32-to-i32 cast that
save_averages applies to each hourly value. -/
def truncQ (q : ℚ) : ℤ := q.num.tdiv (q.den : ℤ)

def save_averages (m : AverageMap) : List (ℤ × (Fin 24 → ℤ)) :=
  m.map (fun p => (p.1, fun h => truncQ (p.2.hourly h)))

def load_averages (hour : Fin 24) (rows : List (ℤ × (Fin 24 → ℤ))) : AverageMap :=
  rows.map (fun p => (p.1, ListenerData.new ((p.2 hour : ℤ) : ℚ) (fun h => ((p.2 h : ℤ) : ℚ))))

/-- Modelled from the spec: main.rs inserts ListenerData::new(listeners) for a
feed observed for the first time; the single-argument constructor is not among
the embedded sources, and per the spec the hourly table of a feed without
persisted state starts at zero, while the average is seeded from the currently
observed listener count as at the call site. -/
def ListenerData.newFirstSeen (listeners : ℚ) : ListenerData :=
  ListenerData.new listeners (fun _ => 0)

/-- HashMap::entry(id).or_insert(d) on the association-list registry model. -/
def entryOrInsert (m : AverageMap) (id : ℤ) (d : ListenerData) : AverageMap :=
  if m.any (fun p => p.1 == id) then m else (id, d) :: m

def insertFeedState (m : AverageMap) (id : ℤ) (listeners : ℚ) : AverageMap :=
  entryOrInsert m id (ListenerData.newFirstSeen listeners)

/-- Suffix of the last n elements of a list. -/
def lastN (n : ℕ) (l : List ℚ) : List ℚ := l.drop (l.length - n)

def cfgC1 : Config :=
  { spike := 1 / 10
    low_listener_increase := 0
    high_listener_dec := 0
    high_listener_dec_every := 1
    reset_pcnt := 0
    adjust_pcnt := 0
    spikes_required := 0 }

def dC1 : ListenerData :=
  { average := { current := 1, last := 1, moving := [1] }
    unskewed_avg := none
    hourly := fun _ => 0
    spike_count := 255 }

def cfgC4 : Config :=
  { spike := 1 / 5
    low_listener_increase := 0
    high_listener_dec := 1
    high_listener_dec_every := 2
    reset_pcnt := 0
    adjust_pcnt := 0
    spikes_required := 0 }

def dC4a : ListenerData :=
  { average := { current := 10, last := 10, moving := [10] }
    unskewed_avg := none
    hourly := fun _ => 0
    spike_count := 0 }

def dC4b : ListenerData :=
  { average := { current := 10, last := 10, moving := [10] }
    unskewed_avg := some 5
    hourly := fun _ => 0
    spike_count := 0 }

def cfgC5 : Config :=
  { spike := 1 / 10
    low_listener_increase := 0
    high_listener_dec := 0
    high_listener_dec_every := 1
    reset_pcnt := 0
    adjust_pcnt := 0
    spikes_required := 2 }

def dC5 : ListenerData :=
  { average := { current := 100, last := 100, moving := [100, 100, 100] }
    unskewed_avg := none
    hourly := fun _ => 0
    spike_count := 2 }

def cfgC6 : Config :=
  { spike := 1 / 10
    low_listener_increase := 0
    high_listener_dec := 0
    high_listener_dec_every := 1
    reset_pcnt := 0
    adjust_pcnt := 0
    spikes_required := 0 }

def dC7 : ListenerData :=
  { average := { current := 5 / 2, last := 5 / 2, moving := [5 / 2] }
    unskewed_avg := none
    hourly := fun _ => 7 / 2
    spike_count := 0 }

def cfgC9 : Config :=
  { spike := 1 / 100
    low_listener_increase := -1
    high_listener_dec := 0
    high_listener_dec_every := 1
    reset_pcnt := 0
    adjust_pcnt := 0
    spikes_required := 0 }

def dC9 : ListenerData :=
  { average := { current := 1, last := 1, moving := [1] }
    unskewed_avg := none
    hourly := fun _ => 0
    spike_count := 0 }

def cfgC9w : Config :=
  { spike := 1 / 10
    low_listener_increase := 0
    high_listener_dec := 1
    high_listener_dec_every := 1
    reset_pcnt := 0
    adjust_pcnt := 0
    spikes_required := 2 }

def dC9w : ListenerData :=
  { average := { current := 60, last := 60, moving := [60, 60] }
    unskewed_avg := none
    hourly := fun _ => 0
    spike_count := 0 }

def cfgC10 : Config :=
  { spike := 1 / 10
    low_listener_increase := 0
    high_listener_dec := 0
    high_listener_dec_every := 1
    reset_pcnt := 0
    adjust_pcnt := 0
    spikes_required := 0 }

def dC10 : ListenerData :=
  { average := { current := 3, last := 3, moving := [3] }
    unskewed_avg := none
    hourly := fun _ => 9
    spike_count := 0 }

lemma lastN_of_length_le {n : ℕ} {l : List ℚ} (h : l.length ≤ n) : lastN n l = l := by
  unfold lastN
  rw [Nat.sub_eq_zero_of_le h, List.drop_zero]

lemma length_lastN (n : ℕ) (l : List ℚ) : (lastN n l).length = min n l.length := by
  unfold lastN
  rw [List.length_drop]
  omega

lemma lastN_append_left (n : ℕ) (l m : List ℚ) :
    lastN n (lastN n l ++ m) = lastN n (l ++ m) := by
  unfold lastN
  rw [← List.drop_append_of_le_length (Nat.sub_le l.length n), List.drop_drop]
  congr 1
  simp only [List.length_append, List.length_drop]
  omega

/-- One update step turns the window into the last-5 suffix of the old window
with the new value appended. -/
lemma update_moving (a : Average) (v : ℚ) (h : a.moving.length ≤ MOVING_AVG_SIZE) :
    (a.update v).moving = lastN MOVING_AVG_SIZE (a.moving ++ [v]) := by
  show (if (a.moving ++ [v]).length > MOVING_AVG_SIZE then (a.moving ++ [v]).tail
        else (a.moving ++ [v])) = _
  unfold lastN
  split
  case isTrue h' =>
    have hlen : (a.moving ++ [v]).length - MOVING_AVG_SIZE = 1 := by
      simp only [List.length_append, List.length_singleton] at h' ⊢
      unfold MOVING_AVG_SIZE at h h' ⊢
      omega
    rw [hlen, List.drop_one]
  case isFalse h' =>
    have hlen : (a.moving ++ [v]).length - MOVING_AVG_SIZE = 0 := by
      simp only [not_lt] at h'
      omega
    rw [hlen, List.drop_zero]

lemma update_moving_length (a : Average) (v : ℚ) (h : a.moving.length ≤ MOVING_AVG_SIZE) :
    (a.update v).moving.length ≤ MOVING_AVG_SIZE := by
  rw [update_moving a v h, length_lastN]
  omega

lemma update_current (a : Average) (v : ℚ) :
    (a.update v).current = (a.update v).moving.sum / ((a.update v).moving.length : ℚ) := rfl

lemma update_last (a : Average) (v : ℚ) : (a.update v).last = a.current := rfl

/-- After folding any sequence of updates over a window of at most 5 elements,
the window is the last-5 suffix of the old window with the values appended. -/
lemma foldl_update_moving (vs : List ℚ) :
    ∀ a : Average, a.moving.length ≤ MOVING_AVG_SIZE →
      (vs.foldl Average.update a).moving = lastN MOVING_AVG_SIZE (a.moving ++ vs) ∧
      (vs.foldl Average.update a).moving.length ≤ MOVING_AVG_SIZE := by
  induction vs with
  | nil =>
    intro a h
    simpa [lastN_of_length_le h] using h
  | cons v vs ih =>
    intro a h
    rw [List.foldl_cons]
    obtain ⟨ih1, ih2⟩ := ih (a.update v) (update_moving_length a v h)
    refine ⟨?_, ih2⟩
    rw [ih1, update_moving a v h, lastN_append_left, List.append_assoc,
      List.singleton_append]

lemma new_moving_length (s : ℚ) : (Average.new s).moving.length ≤ MOVING_AVG_SIZE := by
  unfold Average.new MOVING_AVG_SIZE
  split <;> simp

lemma update_hourly_body_hourly_frame (d : ListenerData) (cfg : Config) (hour : Fin 24)
    (b : Bool) (sc : ℕ) (h' : Fin 24) (hne : h' ≠ hour) :
    (d.update_hourly_body cfg hour b sc).hourly h' = d.hourly h' := by
  unfold ListenerData.update_hourly_body
  rcases h : d.unskewed_avg with _ | u
  · simp only [h]
    simp [Function.update_noteq hne]
  · simp only [h]
    split <;> simp [Function.update_noteq hne]

lemma update_hourly_average (d : ListenerData) (cfg : Config) (hour : Fin 24) (b : Bool) :
    (d.update_hourly cfg hour b).average = d.average := by
  unfold ListenerData.update_hourly ListenerData.update_hourly_body
  rcases h : d.unskewed_avg with _ | u
  · simp only [h]
  · simp only [h]
    split <;> rfl

/-- In the Tracking state (no corrective baseline), update_hourly either
enters Correcting with the current average or stays Tracking, writes the
current average into the hourly slot, and leaves the average untouched. -/
lemma update_hourly_tracking (d : ListenerData) (cfg : Config) (hour : Fin 24) (b : Bool)
    (hnone : d.unskewed_avg = none) :
    (d.update_hourly cfg hour b).unskewed_avg =
      (if b = true ∧ cfg.spikes_required < (d.spike_count + 1) % 256 ∧ 0 < d.average.last
        then some d.average.current else none) ∧
    (d.update_hourly cfg hour b).hourly hour = d.average.current ∧
    (d.update_hourly cfg hour b).average = d.average := by
  unfold ListenerData.update_hourly ListenerData.update_hourly_body
  simp only [hnone]
  refine ⟨?_, by simp, by trivial⟩
  cases b <;> simp

lemma delta_settled_zero (d : ListenerData) (v : ℚ)
    (hnone : d.unskewed_avg = none) (hcur : d.average.current = v) :
    d.get_average_delta v = 0 := by
  unfold ListenerData.get_average_delta
  simp only [hnone]
  rw [hcur]
  exact sub_self v

lemma threshold_pos_of_settled (d : ListenerData) (cfg : Config) (v : ℚ)
    (hnone : d.unskewed_avg = none) (hcur : d.average.current = v)
    (hspike : 0 < cfg.spike) (hlow : 0 ≤ cfg.low_listener_increase) :
    0 < d.threshold cfg v := by
  unfold ListenerData.threshold
  split
  case isTrue h =>
    dsimp only
    have : 0 ≤ (50 - v) * cfg.low_listener_increase :=
      mul_nonneg (by linarith) hlow
    linarith
  case isFalse h =>
    dsimp only
    rw [delta_settled_zero d v hnone hcur, zero_div, zero_mul]
    rcases le_or_lt (1 / 100 : ℚ) cfg.spike with hc | hc
    · rw [min_eq_left (by linarith)]
      linarith
    · rw [min_eq_right (by linarith)]
      linarith

lemma has_spiked_settled_false (d : ListenerData) (cfg : Config) (v : ℚ)
    (hnone : d.unskewed_avg = none) (hcur : d.average.current = v) (hv : 0 < v)
    (hspike : 0 < cfg.spike) (hlow : 0 ≤ cfg.low_listener_increase) :
    d.has_spiked cfg v = false := by
  unfold ListenerData.has_spiked
  rw [if_neg (by rw [hcur]; exact ne_of_gt hv)]
  simp only [decide_eq_false_iff_not, not_le]
  rw [hcur]
  have hT := threshold_pos_of_settled d cfg v hnone hcur hspike hlow
  have := mul_pos hv hT
  linarith

lemma update_replicate_current (a : Average) (v : ℚ) (n : ℕ)
    (h : a.moving = List.replicate n v) : (a.update v).current = v := by
  unfold Average.update
  simp only [h, ← List.replicate_succ']
  simp only [List.length_replicate]
  split
  case isTrue h' =>
    rw [List.tail_replicate, List.sum_replicate, List.length_replicate]
    rw [nsmul_eq_mul]
    have hn : ((n + 1 - 1 : ℕ) : ℚ) ≠ 0 := by
      unfold MOVING_AVG_SIZE at h'
      rw [Nat.cast_ne_zero]
      omega
    rw [mul_div_cancel_left₀ v hn]
  case isFalse h' =>
    rw [List.sum_replicate, List.length_replicate, nsmul_eq_mul]
    have hn : ((n + 1 : ℕ) : ℚ) ≠ 0 := by
      rw [Nat.cast_ne_zero]
      omega
    rw [mul_div_cancel_left₀ v hn]

/-- C1: the spec claims a step call can never fail for any number of
consecutive spiked cycles, but the u8 spike counter sits at 255 after 255
consecutive spiked cycles and the next spiked cycle overflows the increment:
the checked embedding aborts (returns none) while the release-mode wrapping
embedding silently resets the counter to 0. -/
theorem step_u8_overflow :
    dC1.spike_count = 255 ∧ dC1.has_spiked cfgC1 100 = true ∧
    dC1.stepChecked cfgC1 0 100 = none ∧
    ((dC1.step cfgC1 0 100).2).spike_count = 0 := by
  refine ⟨rfl, ?_, ?_, ?_⟩ <;>
    norm_num [ListenerData.step, ListenerData.stepChecked, ListenerData.update_hourly,
      ListenerData.update_hourlyChecked, ListenerData.update_hourly_body, checkedAddU8,
      ListenerData.has_spiked, ListenerData.threshold, ListenerData.get_average_delta,
      Average.update, MOVING_AVG_SIZE, dC1, cfgC1]

/-- C2: step returns the spike flag computed on the average as it was before
this call updated it; only afterwards is the moving average updated with the
raw value, and the hourly-baseline / corrective update then runs on the state
holding the post-update average. -/
theorem step_order (d : ListenerData) (cfg : Config) (hour : Fin 24) (v : ℚ) :
    (d.step cfg hour v).1 = d.has_spiked cfg v ∧
    (d.step cfg hour v).2 =
      ListenerData.update_hourly { d with average := d.average.update v } cfg hour
        (d.has_spiked cfg v) ∧
    (d.step cfg hour v).2.average = d.average.update v :=
  ⟨rfl, rfl,
    update_hourly_average { d with average := d.average.update v } cfg hour
      (d.has_spiked cfg v)⟩

/-- C3: for every seed and every finite sequence of update calls, the window
holds at most 5 elements, namely the last 5 of the seeded window followed by
the update values in FIFO order; current is the arithmetic mean of the window
whenever the window is non-empty, and last is the value current held before
the most recent update. -/
theorem average_window_mean (s : ℚ) (vs : List ℚ) :
    (vs.foldl Average.update (Average.new s)).moving.length ≤ MOVING_AVG_SIZE ∧
    (vs.foldl Average.update (Average.new s)).moving =
      lastN MOVING_AVG_SIZE ((Average.new s).moving ++ vs) ∧
    ((vs.foldl Average.update (Average.new s)).moving ≠ [] →
      (vs.foldl Average.update (Average.new s)).current =
        (vs.foldl Average.update (Average.new s)).moving.sum /
          (((vs.foldl Average.update (Average.new s)).moving.length : ℕ) : ℚ)) ∧
    (vs ≠ [] →
      (vs.foldl Average.update (Average.new s)).last =
        (vs.dropLast.foldl Average.update (Average.new s)).current) := by
  obtain ⟨h1, h2⟩ := foldl_update_moving vs (Average.new s) (new_moving_length s)
  refine ⟨h2, h1, ?_, ?_⟩
  · intro hne
    rcases List.eq_nil_or_concat vs with rfl | ⟨ys, y, rfl⟩
    · simp only [List.foldl_nil] at hne ⊢
      unfold Average.new at hne ⊢
      by_cases hs : s > 0
      · simp [hs]
      · simp [hs] at hne
    · simp only [List.concat_eq_append, List.foldl_append, List.foldl_cons, List.foldl_nil]
      exact update_current _ y
  · intro hne
    conv_lhs => rw [← List.dropLast_append_getLast hne]
    rw [List.foldl_append]
    simp only [List.foldl_cons, List.foldl_nil]
    rfl

theorem average_window_mean_witness :
    (([3, 4, 10, 1, 6, 7] : List ℚ).foldl Average.update (Average.new 2)).current =
      (([3, 4, 10, 1, 6, 7] : List ℚ).foldl Average.update (Average.new 2)).moving.sum /
        ((((([3, 4, 10, 1, 6, 7] : List ℚ).foldl Average.update
            (Average.new 2)).moving.length : ℕ)) : ℚ) ∧
    (([3, 4, 10, 1, 6, 7] : List ℚ).foldl Average.update (Average.new 2)).last =
      (([3, 4, 10, 1, 6, 7] : List ℚ).dropLast.foldl Average.update (Average.new 2)).current :=
  ⟨(average_window_mean 2 [3, 4, 10, 1, 6, 7]).2.2.1
      (by simp [Average.update, Average.new, MOVING_AVG_SIZE]),
   (average_window_mean 2 [3, 4, 10, 1, 6, 7]).2.2.2 (by simp)⟩

/-- C4: for raw values of at least 50 and positive decay rate and decay
period, the adaptive threshold is monotonically non-increasing as the average
delta increases, and it never drops strictly below 1/100. -/
theorem threshold_monotone_bounded (cfg : Config) (d₁ d₂ : ListenerData) (v₁ v₂ : ℚ)
    (hper : 0 < cfg.high_listener_dec_every) (hpcnt : 0 < cfg.high_listener_dec)
    (h₁ : (50 : ℚ) ≤ v₁) (h₂ : (50 : ℚ) ≤ v₂)
    (hδ : d₁.get_average_delta v₁ ≤ d₂.get_average_delta v₂) :
    d₂.threshold cfg v₂ ≤ d₁.threshold cfg v₁ ∧ 1 / 100 ≤ d₂.threshold cfg v₂ := by
  unfold ListenerData.threshold
  rw [if_neg (not_lt.mpr h₁), if_neg (not_lt.mpr h₂)]
  constructor
  · have hx : d₁.get_average_delta v₁ / cfg.high_listener_dec_every * cfg.high_listener_dec ≤
        d₂.get_average_delta v₂ / cfg.high_listener_dec_every * cfg.high_listener_dec := by
      have := (div_le_div_iff_of_pos_right hper).mpr hδ
      exact mul_le_mul_of_nonneg_right this (le_of_lt hpcnt)
    exact sub_le_sub_left (min_le_min hx le_rfl) _
  · have hmin :
        min (d₂.get_average_delta v₂ / cfg.high_listener_dec_every * cfg.high_listener_dec)
          (cfg.spike - 1 / 100) ≤ cfg.spike - 1 / 100 := min_le_right _ _
    linarith

theorem threshold_monotone_bounded_witness :
    dC4b.threshold cfgC4 50 ≤ dC4a.threshold cfgC4 50 ∧ 1 / 100 ≤ dC4b.threshold cfgC4 50 :=
  threshold_monotone_bounded cfgC4 dC4a dC4b 50 50 (by norm_num [cfgC4]) (by norm_num [cfgC4])
    (by norm_num) (by norm_num)
    (by norm_num [ListenerData.get_average_delta, dC4a, dC4b])

/-- C5: from the Tracking state, a step call sets the corrective baseline to
the post-update average exactly when this cycle spiked, the post-increment
spike streak strictly exceeds the required streak, and the previous average
(the pre-update current) is strictly positive; the hourly slot receives the
post-update average regardless. -/
theorem tracking_enter_correcting_iff (d : ListenerData) (cfg : Config) (hour : Fin 24)
    (v : ℚ) (hnone : d.unskewed_avg = none) :
    ((d.step cfg hour v).2.unskewed_avg = some ((d.average.update v).current) ↔
      (d.has_spiked cfg v = true ∧ cfg.spikes_required < (d.spike_count + 1) % 256 ∧
        0 < d.average.current)) ∧
    (d.step cfg hour v).2.hourly hour = (d.average.update v).current := by
  obtain ⟨k1, k2, k3⟩ := update_hourly_tracking { d with average := d.average.update v } cfg hour
    (d.has_spiked cfg v) hnone
  have hstep : (d.step cfg hour v).2 =
      ListenerData.update_hourly { d with average := d.average.update v } cfg hour
        (d.has_spiked cfg v) := rfl
  rw [hstep]
  refine ⟨?_, k2⟩
  rw [k1]
  have hl : ({ d with average := d.average.update v } : ListenerData).average.last =
      d.average.current := update_last d.average v
  have hc : ({ d with average := d.average.update v } : ListenerData).spike_count =
      d.spike_count := rfl
  rw [hl, hc]
  split
  case isTrue h => exact iff_of_true rfl h
  case isFalse h => exact iff_of_false (by simp) h

theorem tracking_enter_correcting_iff_witness :
    (dC5.step cfgC5 3 1000).2.unskewed_avg = some ((dC5.average.update 1000).current) :=
  (tracking_enter_correcting_iff dC5 cfgC5 3 1000 rfl).1.mpr
    ⟨by norm_num [ListenerData.has_spiked, ListenerData.threshold,
        ListenerData.get_average_delta, dC5, cfgC5],
     by norm_num [dC5, cfgC5], by norm_num [dC5]⟩

/-- C6: has_spiked returns false whenever the current moving average equals
zero, for every configuration and raw value. -/
theorem has_spiked_zero_average (d : ListenerData) (cfg : Config) (v : ℚ)
    (h : d.average.current = 0) : d.has_spiked cfg v = false := by
  unfold ListenerData.has_spiked
  rw [if_pos h]

theorem has_spiked_zero_average_witness :
    (ListenerData.new 0 (fun _ => 0)).has_spiked cfgC6 7 = false :=
  has_spiked_zero_average (ListenerData.new 0 (fun _ => 0)) cfgC6 7 rfl

/-- C7: persisting a registry and reloading it reproduces every feed's hourly
table up to truncation toward zero of each value, and seeds the reloaded
average's current to the stored value at the current hour index. -/
theorem save_load_roundtrip (m : AverageMap) (hour : Fin 24) (id : ℤ) (d : ListenerData)
    (hmem : (id, d) ∈ m) :
    ∃ d', (id, d') ∈ load_averages hour (save_averages m) ∧
      (∀ h, d'.hourly h = (truncQ (d.hourly h) : ℚ)) ∧
      d'.average.current = d'.hourly hour := by
  refine ⟨ListenerData.new (truncQ (d.hourly hour) : ℚ) (fun h => (truncQ (d.hourly h) : ℚ)),
    ?_, fun h => rfl, rfl⟩
  unfold load_averages save_averages
  rw [List.map_map]
  exact List.mem_map.mpr ⟨(id, d), hmem, rfl⟩

theorem save_load_roundtrip_witness :
    ∃ d', (3, d') ∈ load_averages 2 (save_averages [(3, dC7)]) ∧
      (∀ h, d'.hourly h = (truncQ (dC7.hourly h) : ℚ)) ∧
      d'.average.current = d'.hourly 2 :=
  save_load_roundtrip [(3, dC7)] 2 3 dC7 (List.mem_singleton.mpr rfl)

/-- C8 counterexample: a feed first observed with 100 listeners is inserted
seeded with that value, not at zero/empty: its moving-average window is
non-empty and its current average is 100. -/
theorem first_seen_not_zero_seeded :
    insertFeedState [] 7 100 = [(7, ListenerData.newFirstSeen 100)] ∧
    (ListenerData.newFirstSeen 100).average.moving ≠ [] ∧
    (ListenerData.newFirstSeen 100).average.current = 100 := by
  refine ⟨rfl, ?_, rfl⟩
  norm_num [ListenerData.newFirstSeen, ListenerData.new, Average.new]

/-- C8 amended: on first observation of a feed identifier with no persisted
baseline, the inserted state is seeded from the observed listener count: the
window holds that count when it is positive (otherwise it is empty), current
and last equal the count, there is no corrective baseline, the spike streak
is zero and the hourly baselines are all zero. -/
theorem first_seen_seeding (m : AverageMap) (id : ℤ) (v : ℚ)
    (hfirst : m.any (fun p => p.1 == id) = false) :
    insertFeedState m id v = (id, ListenerData.newFirstSeen v) :: m ∧
    (ListenerData.newFirstSeen v).average.moving = (if v > 0 then [v] else []) ∧
    (ListenerData.newFirstSeen v).average.current = v ∧
    (ListenerData.newFirstSeen v).average.last = v ∧
    (ListenerData.newFirstSeen v).unskewed_avg = none ∧
    (ListenerData.newFirstSeen v).spike_count = 0 ∧
    (∀ h, (ListenerData.newFirstSeen v).hourly h = 0) := by
  refine ⟨?_, rfl, rfl, rfl, rfl, rfl, fun h => rfl⟩
  unfold insertFeedState entryOrInsert
  rw [hfirst]
  simp

theorem first_seen_seeding_witness :
    insertFeedState [] 9 0 = [(9, ListenerData.newFirstSeen 0)] ∧
    (ListenerData.newFirstSeen 0).average.moving = (if (0 : ℚ) > 0 then [(0 : ℚ)] else []) ∧
    (ListenerData.newFirstSeen 0).average.current = 0 ∧
    (ListenerData.newFirstSeen 0).average.last = 0 ∧
    (ListenerData.newFirstSeen 0).unskewed_avg = none ∧
    (ListenerData.newFirstSeen 0).spike_count = 0 ∧
    (∀ h, (ListenerData.newFirstSeen 0).hourly h = 0) :=
  first_seen_seeding [] 9 0 rfl

/-- C9 counterexample: with a positive spikeBase but a negative low-listener
sensitivity, a feed settled at 1 (window [1], current 1, Tracking) fed its
own average transitions into Correcting, refuting the claim as stated. -/
theorem step_idempotent_cex :
    0 < cfgC9.spike ∧ dC9.unskewed_avg = none ∧ dC9.average.moving = List.replicate 1 1 ∧
    dC9.average.current = 1 ∧ (dC9.step cfgC9 0 1).2.unskewed_avg = some 1 := by
  refine ⟨by norm_num [cfgC9], rfl, rfl, rfl, ?_⟩
  norm_num [ListenerData.step, ListenerData.update_hourly, ListenerData.update_hourly_body,
    ListenerData.has_spiked, ListenerData.threshold, ListenerData.get_average_delta,
    Average.update, MOVING_AVG_SIZE, dC9, cfgC9]

/-- C9 amended: for a Tracking state whose window is settled at the raw value
(window all equal to v, current = v), with positive spikeBase and non-negative
low-listener sensitivity, a step with v never enters Correcting and leaves
the hourly slot equal to the current average, which stays v. -/
theorem step_idempotent (d : ListenerData) (cfg : Config) (hour : Fin 24) (v : ℚ) (n : ℕ)
    (hnone : d.unskewed_avg = none) (hwin : d.average.moving = List.replicate n v)
    (hcur : d.average.current = v) (hspike : 0 < cfg.spike)
    (hlow : 0 ≤ cfg.low_listener_increase) :
    (d.step cfg hour v).2.unskewed_avg = none ∧
    (d.step cfg hour v).2.hourly hour = v ∧
    (d.step cfg hour v).2.average.current = v := by
  obtain ⟨k1, k2, k3⟩ := update_hourly_tracking { d with average := d.average.update v } cfg hour
    (d.has_spiked cfg v) hnone
  have hstep : (d.step cfg hour v).2 =
      ListenerData.update_hourly { d with average := d.average.update v } cfg hour
        (d.has_spiked cfg v) := rfl
  have hcur' : ({ d with average := d.average.update v } : ListenerData).average.current = v :=
    update_replicate_current d.average v n hwin
  have hlast' : ({ d with average := d.average.update v } : ListenerData).average.last =
      d.average.current := update_last d.average v
  have hguard : ¬(d.has_spiked cfg v = true ∧
      cfg.spikes_required <
        (({ d with average := d.average.update v } : ListenerData).spike_count + 1) % 256 ∧
      0 < ({ d with average := d.average.update v } : ListenerData).average.last) := by
    rintro ⟨h1, _, h3⟩
    rw [hlast', hcur] at h3
    rw [has_spiked_settled_false d cfg v hnone hcur h3 hspike hlow] at h1
    exact Bool.false_ne_true h1
  rw [hstep]
  refine ⟨?_, ?_, ?_⟩
  · rw [k1, if_neg hguard]
  · rw [k2]
    exact hcur'
  · rw [k3]
    exact hcur'

theorem step_idempotent_witness :
    (dC9w.step cfgC9w 5 60).2.unskewed_avg = none ∧
    (dC9w.step cfgC9w 5 60).2.hourly 5 = 60 ∧
    (dC9w.step cfgC9w 5 60).2.average.current = 60 :=
  step_idempotent dC9w cfgC9w 5 60 2 rfl rfl rfl (by norm_num [cfgC9w]) (by norm_num [cfgC9w])

/-- C10: a step call leaves every hourly slot other than the given hour
unchanged. -/
theorem step_hourly_frame (d : ListenerData) (cfg : Config) (hour h' : Fin 24) (v : ℚ)
    (hne : h' ≠ hour) : ((d.step cfg hour v).2).hourly h' = d.hourly h' :=
  update_hourly_body_hourly_frame { d with average := d.average.update v } cfg hour
    (d.has_spiked cfg v)
    (if d.has_spiked cfg v then (d.spike_count + 1) % 256 else 0) h' hne

theorem step_hourly_frame_witness :
    ((dC10.step cfgC10 0 5).2).hourly 1 = dC10.hourly 1 :=
  step_hourly_frame dC10 cfgC10 0 1 5 (by decide)

end BC
